import Mathlib

/-!
A shallow embedding of `game_of_life.py` (Conway's Game of Life).

The Python classes `Cell`, `Cells`, `Board` and `World` are embedded as
structures and pure functions.  In-place mutation of a `Cell` object that
lives inside a board is modelled as a positional update of the board (cells
are identified by their `(row, col)` position, which is unique on every
board built through the API).  Python list indexing, with its silent
negative-index wraparound and its IndexError on anything further out of
range, is modelled by `pyGet`, and `random.randint` by an oracle-driven
`Option`-valued function.
-/

set_option linter.all false

/-- `Cell`: a fixed `(row, col)` position plus the mutable alive flag
(`Cell.__init__` starts every cell dead). -/
structure Cell where
  row : Nat
  col : Nat
  _is_alive : Bool
deriving DecidableEq

/-- `Cell.set_alive(is_alive)`. -/
def Cell.set_alive (c : Cell) (is_alive : Bool) : Cell :=
  { c with _is_alive := is_alive }

/-- `Cell.is_alive()`. -/
def Cell.is_alive (c : Cell) : Bool :=
  c._is_alive

/-- `Cell.is_dead()`: `not self._is_alive`. -/
def Cell.is_dead (c : Cell) : Bool :=
  !c._is_alive

/-- `Cells.get_n_alive`: `len(list(filter(lambda cell: cell.is_alive(), cells)))`. -/
def Cells.get_n_alive (cells : List Cell) : Nat :=
  (cells.filter fun cell => cell.is_alive).length

/-- `Board`: the dimensions and the row-major list of rows of cells. -/
structure Board where
  n_rows : Nat
  n_cols : Nat
  cells : List (List Cell)
deriving DecidableEq

/-- `Board.__init__(n_rows, n_cols)`: a grid of fresh (dead) cells, each
knowing its own position. -/
def Board.new (n_rows n_cols : Nat) : Board :=
  { n_rows := n_rows, n_cols := n_cols,
    cells := (List.range n_rows).map fun row =>
      (List.range n_cols).map fun col => { row := row, col := col, _is_alive := false } }

/-- `Board.one_dim_size`: `n_rows * n_cols`. -/
def Board.one_dim_size (b : Board) : Nat :=
  b.n_rows * b.n_cols

/-- Python list indexing `l[i]`: a non-negative index is used directly, a
negative index counts from the end of the list, and an index that is still
out of range raises IndexError (modelled as `none`). -/
def pyGet {α : Type} (l : List α) (i : Int) : Option α :=
  let j : Int := if i < 0 then i + l.length else i
  if j < 0 then none else l[j.toNat]?

/-- `Board.find_cell_by_row_col(row, col)`: `self.cells[row][col]`, with
Python indexing semantics. -/
def Board.find_cell_by_row_col (b : Board) (row col : Int) : Option Cell :=
  (pyGet b.cells row).bind fun cells_row => pyGet cells_row col

/-- `Board.find_cell(idx)`: `self.cells[int(idx / n_cols)][idx % n_cols]`.
When `n_cols = 0` the division raises ZeroDivisionError (`none`); for the
non-negative `idx` passed by `random_seed`, `int(idx / n_cols)` is plain
integer division. -/
def Board.find_cell (b : Board) (idx : Int) : Option Cell :=
  if b.n_cols = 0 then none
  else (pyGet b.cells (idx / (b.n_cols : Int))).bind fun cells_row =>
    pyGet cells_row (idx % (b.n_cols : Int))

/-- `Board.get_living_cells`: row-major traversal keeping the alive cells. -/
def Board.get_living_cells (b : Board) : List Cell :=
  b.cells.flatten.filter fun cell => cell.is_alive

/-- `Board.get_dead_cells`: row-major traversal keeping the dead cells. -/
def Board.get_dead_cells (b : Board) : List Cell :=
  b.cells.flatten.filter fun cell => cell.is_dead

/-- `Board._get_cell_neighbour_indices`: the 8 offset positions around the
cell, skipping the (0, 0) offset (`range(-1, 2)` is `[-1, 0, 1]`). -/
def Board._get_cell_neighbour_indices (cell : Cell) : List (Int × Int) :=
  ([-1, 0, 1] : List Int).flatMap fun row_delta =>
    ([-1, 0, 1] : List Int).filterMap fun col_delta =>
      if row_delta = 0 ∧ col_delta = 0 then none
      else some ((cell.row : Int) + row_delta, (cell.col : Int) + col_delta)

/-- `self.cells[i][j]` for indices already known to be in range (the bounds
filter in `get_neighbours` guarantees this; a dummy cell is returned out of
range, where the source would have raised). -/
def Board.cellAt (b : Board) (i j : Nat) : Cell :=
  (b.cells[i]?.bind fun cells_row => cells_row[j]?).getD
    { row := 0, col := 0, _is_alive := false }

/-- `Board.get_neighbours`: keep the neighbour indices inside
`[0, n_rows) x [0, n_cols)` and look the cells up. -/
def Board.get_neighbours (b : Board) (cell : Cell) : List Cell :=
  ((Board._get_cell_neighbour_indices cell).filter fun idx =>
      decide (0 ≤ idx.1 ∧ idx.1 < (b.n_rows : Int) ∧ 0 ≤ idx.2 ∧ idx.2 < (b.n_cols : Int))).map
    fun idx => b.cellAt idx.1.toNat idx.2.toNat

/-- `Cells.toggle_alive` on a list of cells taken from a board: each listed
cell object is mutated in place, so on the board every cell whose position
occurs in the list has its alive flag flipped. -/
def Board.toggle_at (b : Board) (toggling_cells : List Cell) : Board :=
  { b with cells := b.cells.map fun cells_row => cells_row.map fun cell =>
      if toggling_cells.any fun t => decide (t.row = cell.row ∧ t.col = cell.col)
      then cell.set_alive (!cell.is_alive) else cell }

/-- `cell.set_alive(v)` on a cell object obtained from the board mutates
the board at that cell's position. -/
def Board.set_cell_alive (b : Board) (cell : Cell) (v : Bool) : Board :=
  { b with cells := b.cells.map fun cells_row => cells_row.map fun c =>
      if decide (c.row = cell.row ∧ c.col = cell.col) then c.set_alive v else c }

/-- `World`: a board plus the generation counter `_tick`. -/
structure World where
  board : Board
  _tick : Nat
deriving DecidableEq

/-- `World.__init__(board)`: the counter starts at 0. -/
def World.new (board : Board) : World :=
  { board := board, _tick := 0 }

/-- `World._one_dim_size`. -/
def World._one_dim_size (w : World) : Nat :=
  w.board.one_dim_size

/-- The classification of a live cell in `World._tick_living_cells`: fewer
than two live neighbours dies (underpopulation), two or three lives on,
more than three dies (overpopulation). -/
def livingCellToggles (n_alive_neighbours : Nat) : Bool :=
  if n_alive_neighbours < 2 then true
  else if 3 ≥ n_alive_neighbours ∧ n_alive_neighbours ≥ 2 then false
  else if n_alive_neighbours > 3 then true
  else false

/-- `World._tick_living_cells`: the live cells that will be toggled. -/
def World._tick_living_cells (w : World) : List Cell :=
  w.board.get_living_cells.filter fun living_cell =>
    livingCellToggles (Cells.get_n_alive (w.board.get_neighbours living_cell))

/-- `World._tick_dead_cells`: the dead cells with exactly three live
neighbours (reproduction). -/
def World._tick_dead_cells (w : World) : List Cell :=
  w.board.get_dead_cells.filter fun dead_cell =>
    decide (Cells.get_n_alive (w.board.get_neighbours dead_cell) = 3)

/-- `World.tick`: both scans run over the pre-tick board, then the two
toggle lists are applied and the counter incremented. -/
def World.tick (w : World) : World :=
  let live_to_toggle := w._tick_living_cells
  let dead_to_toggle := w._tick_dead_cells
  { board := (w.board.toggle_at live_to_toggle).toggle_at dead_to_toggle,
    _tick := w._tick + 1 }

/-- n successive `tick()` calls. -/
def World.tickN (w : World) : Nat → World
  | 0 => w
  | n + 1 => (w.tickN n).tick

/-- `random.randint(a, b)`: some value in `[a, b]`, driven by the oracle
`choice`; raises ValueError (`none`) when `b < a`. -/
def randint (choice : Nat) (a b : Int) : Option Int :=
  if b < a then none else some (a + (choice % (b - a + 1).toNat : Nat))

/-- The body of the loop in `World.random_seed`: draw a random index, look
the cell up, set it alive. -/
def seedStep (world_len : Nat) (choices : Nat → Nat) (acc : World) (x : Nat) : Option World :=
  (randint (choices x) 0 ((world_len : Int) - 1)).bind fun cell_idx =>
    (acc.board.find_cell cell_idx).map fun cell =>
      { acc with board := acc.board.set_cell_alive cell true }

/-- `World.random_seed(n_live)`: `world_len` is computed once, then the
loop body `seedStep` runs for `x in range(n_live)`. -/
def World.random_seed (w : World) (choices : Nat → Nat) (n_live : Nat) : Option World :=
  (List.range n_live).foldlM (seedStep w._one_dim_size choices) w

/-- A board whose cell at `(i, j)` is alive exactly when `f i j`: the
canonical shape of every board reachable through the API. -/
def Board.ofFn (R C : Nat) (f : Nat → Nat → Bool) : Board :=
  { n_rows := R, n_cols := C,
    cells := (List.range R).map fun i =>
      (List.range C).map fun j => { row := i, col := j, _is_alive := f i j } }

/-- The 8 neighbour offsets, in the enumeration order of the source. -/
def neighbourOffsets : List (Int × Int) :=
  [(-1, -1), (-1, 0), (-1, 1), (0, -1), (0, 1), (1, -1), (1, 0), (1, 1)]

/-- The number of in-bounds neighbour positions of `(i, j)` that are alive
under `f` on an `R x C` board. -/
def nbrCountF (R C : Nat) (f : Nat → Nat → Bool) (i j : Nat) : Nat :=
  (neighbourOffsets.filter fun d =>
    decide (0 ≤ (i : Int) + d.1 ∧ (i : Int) + d.1 < (R : Int) ∧
      0 ≤ (j : Int) + d.2 ∧ (j : Int) + d.2 < (C : Int) ∧
      f ((i : Int) + d.1).toNat ((j : Int) + d.2).toNat = true)).length

/-- Conway's rule for the next state of one cell. -/
def lifeNext (alive : Bool) (n : Nat) : Bool :=
  if alive then decide (2 ≤ n ∧ n ≤ 3) else decide (n = 3)

/-- The per-cell function computed by one `tick()` on an `R x C` board. -/
def tickF (R C : Nat) (f : Nat → Nat → Bool) (i j : Nat) : Bool :=
  lifeNext (f i j) (nbrCountF R C f i j)

/-- `tickF` iterated n times. -/
def tickFN (R C : Nat) (f : Nat → Nat → Bool) : Nat → (Nat → Nat → Bool)
  | 0 => f
  | n + 1 => tickF R C (tickFN R C f n)

/-- Point update of an alive-flag function. -/
def setF (f : Nat → Nat → Bool) (r c : Nat) (v : Bool) : Nat → Nat → Bool :=
  fun i j => if i = r ∧ j = c then v else f i j

/-- The number of in-range alive cells under `f` on an `R x C` board. -/
def aliveCountF (R C : Nat) (f : Nat → Nat → Bool) : Nat :=
  ((List.range R).map fun i => ((List.range C).filter fun j => f i j).length).sum

/-- The row (or column) actually accessed by Python indexing with a
possibly negative in-range index. -/
def pyIdx (n : Nat) (i : Int) : Nat :=
  if i < 0 then (i + n).toNat else i.toNat

/-- The horizontal blinker: cells (2,1), (2,2), (2,3) alive. -/
def horizBlinker (i j : Nat) : Bool :=
  decide ((i = 2 ∧ j = 1) ∨ (i = 2 ∧ j = 2) ∨ (i = 2 ∧ j = 3))

/-- The vertical blinker: cells (1,2), (2,2), (3,2) alive. -/
def vertBlinker (i j : Nat) : Bool :=
  decide ((i = 1 ∧ j = 2) ∨ (i = 2 ∧ j = 2) ∨ (i = 3 ∧ j = 2))

/-- The number of neighbours of `(i, j)` among the horizontal blinker
cells; on a grid of size at least 5 x 5 this is the full neighbour count. -/
def horizNbrCount (i j : Nat) : Nat :=
  (neighbourOffsets.filter fun d =>
    decide (((i : Int) + d.1, (j : Int) + d.2) ∈
      ([(2, 1), (2, 2), (2, 3)] : List (Int × Int)))).length

/-- The number of neighbours of `(i, j)` among the vertical blinker cells. -/
def vertNbrCount (i j : Nat) : Nat :=
  (neighbourOffsets.filter fun d =>
    decide (((i : Int) + d.1, (j : Int) + d.2) ∈
      ([(1, 2), (2, 2), (3, 2)] : List (Int × Int)))).length

example : Board.new 3 4 = Board.ofFn 3 4 fun _ _ => false := by rfl

example : ((World.new (Board.ofFn 5 5 horizBlinker)).tick).board = Board.ofFn 5 5 vertBlinker := by
  decide

example : ((World.new (Board.ofFn 5 5 horizBlinker)).tickN 2).board = Board.ofFn 5 5 horizBlinker := by
  decide

example : Board.find_cell_by_row_col (Board.ofFn 2 2 fun _ _ => false) (-1) 0 =
    some { row := 1, col := 0, _is_alive := false } := by decide

example : (World.new (Board.ofFn 0 0 fun _ _ => false)).random_seed (fun _ => 0) 1 = none := by
  decide

example : (World.new (Board.ofFn 2 2 fun _ _ => false)).random_seed (fun _ => 3) 1 =
    some { board := Board.ofFn 2 2 fun i j => decide (i = 1 ∧ j = 1), _tick := 0 } := by decide

/-! ### Bridge lemmas: boards in canonical `ofFn` form -/

theorem cells_getElem?_ofFn (R C : Nat) (f : Nat → Nat → Bool) (i : Nat) (hi : i < R) :
    (Board.ofFn R C f).cells[i]? =
      some ((List.range C).map fun j => { row := i, col := j, _is_alive := f i j }) := by
  simp [Board.ofFn, List.getElem?_map, List.getElem?_range hi]

theorem cells_length_ofFn (R C : Nat) (f : Nat → Nat → Bool) :
    (Board.ofFn R C f).cells.length = R := by
  simp [Board.ofFn]

theorem cellAt_ofFn (R C : Nat) (f : Nat → Nat → Bool) (i j : Nat)
    (hi : i < R) (hj : j < C) :
    (Board.ofFn R C f).cellAt i j = { row := i, col := j, _is_alive := f i j } := by
  simp [Board.cellAt, cells_getElem?_ofFn R C f i hi, List.getElem?_map,
    List.getElem?_range hj]

theorem mem_cells_ofFn {R C : Nat} {f : Nat → Nat → Bool} {cell : Cell} :
    cell ∈ (Board.ofFn R C f).cells.flatten ↔
      ∃ i j, i < R ∧ j < C ∧ cell = { row := i, col := j, _is_alive := f i j } := by
  simp only [Board.ofFn, List.mem_flatten, List.mem_map, List.mem_range]
  constructor
  · rintro ⟨l, ⟨i, hi, rfl⟩, hcell⟩
    rcases List.mem_map.mp hcell with ⟨j, hj, rfl⟩
    exact ⟨i, j, hi, List.mem_range.mp hj, rfl⟩
  · rintro ⟨i, j, hi, hj, rfl⟩
    exact ⟨_, ⟨i, hi, rfl⟩, List.mem_map.mpr ⟨j, List.mem_range.mpr hj, rfl⟩⟩

theorem neighbour_indices_eq_offsets (cell : Cell) :
    Board._get_cell_neighbour_indices cell =
      neighbourOffsets.map fun d => ((cell.row : Int) + d.1, (cell.col : Int) + d.2) := rfl

theorem get_n_alive_neighbours_ofFn (R C : Nat) (f : Nat → Nat → Bool) (cell : Cell) :
    Cells.get_n_alive ((Board.ofFn R C f).get_neighbours cell) =
      nbrCountF R C f cell.row cell.col := by
  unfold Cells.get_n_alive Board.get_neighbours nbrCountF
  rw [neighbour_indices_eq_offsets]
  simp only [List.filter_map, List.map_map, List.filter_filter, List.length_map]
  apply congrArg List.length
  apply List.filter_congr
  intro d _
  simp only [Function.comp, cells_length_ofFn]
  by_cases hin : 0 ≤ (cell.row : Int) + d.1 ∧ (cell.row : Int) + d.1 < (R : Int) ∧
      0 ≤ (cell.col : Int) + d.2 ∧ (cell.col : Int) + d.2 < (C : Int)
  · have h1 : ((cell.row : Int) + d.1).toNat < R := by omega
    have h2 : ((cell.col : Int) + d.2).toNat < C := by omega
    rw [cellAt_ofFn R C f _ _ h1 h2]
    simp [Cell.is_alive, Board.ofFn, hin.1, hin.2.1, hin.2.2.1, hin.2.2.2]
  · simp only [Board.ofFn] at hin ⊢
    rw [decide_eq_false hin]
    have : ¬(0 ≤ (cell.row : Int) + d.1 ∧ (cell.row : Int) + d.1 < (R : Int) ∧
        0 ≤ (cell.col : Int) + d.2 ∧ (cell.col : Int) + d.2 < (C : Int) ∧
        f ((cell.row : Int) + d.1).toNat ((cell.col : Int) + d.2).toNat = true) := by
      tauto
    rw [decide_eq_false this]
    simp

theorem toggle_at_ofFn (R C : Nat) (g : Nat → Nat → Bool) (ts : List Cell) :
    (Board.ofFn R C g).toggle_at ts =
      Board.ofFn R C fun i j =>
        if ts.any fun t => decide (t.row = i ∧ t.col = j) then !g i j else g i j := by
  unfold Board.toggle_at Board.ofFn
  simp only [List.map_map]
  apply congrArg
  apply List.map_congr_left
  intro i _
  simp only [Function.comp]
  rw [List.map_map]
  apply List.map_congr_left
  intro j _
  simp only [Function.comp]
  by_cases h : (ts.any fun t => decide (t.row = i ∧ t.col = j)) = true
  · simp only [h, if_true, Cell.set_alive, Cell.is_alive]
  · simp only [Bool.not_eq_true] at h
    simp only [h, Bool.false_eq_true, if_false]

theorem set_cell_alive_ofFn (R C : Nat) (g : Nat → Nat → Bool) (cell : Cell) (v : Bool) :
    (Board.ofFn R C g).set_cell_alive cell v =
      Board.ofFn R C (setF g cell.row cell.col v) := by
  unfold Board.set_cell_alive Board.ofFn setF
  simp only [List.map_map]
  apply congrArg
  apply List.map_congr_left
  intro i _
  simp only [Function.comp]
  rw [List.map_map]
  apply List.map_congr_left
  intro j _
  simp only [Function.comp]
  by_cases h : i = cell.row ∧ j = cell.col
  · simp [h, Cell.set_alive]
  · simp [h]

theorem ofFn_congr {R C : Nat} {f g : Nat → Nat → Bool}
    (h : ∀ i j, i < R → j < C → f i j = g i j) :
    Board.ofFn R C f = Board.ofFn R C g := by
  unfold Board.ofFn
  apply congrArg
  apply List.map_congr_left
  intro i hi
  apply List.map_congr_left
  intro j hj
  rw [h i j (List.mem_range.mp hi) (List.mem_range.mp hj)]

theorem livingCellToggles_eq (n : Nat) :
    livingCellToggles n = decide (n < 2 ∨ 3 < n) := by
  unfold livingCellToggles
  split_ifs with h1 h2 h3
  · exact (decide_eq_true (Or.inl h1)).symm
  · have h : ¬(n < 2 ∨ 3 < n) := by omega
    exact (decide_eq_false h).symm
  · exact (decide_eq_true (Or.inr h3)).symm
  · exact absurd (by omega : 3 < n) h3

theorem any_tick_living_ofFn (R C : Nat) (f : Nat → Nat → Bool) (t i j : Nat) :
    ((World.mk (Board.ofFn R C f) t)._tick_living_cells.any fun cl =>
        decide (cl.row = i ∧ cl.col = j)) =
      (decide (i < R ∧ j < C) && f i j && livingCellToggles (nbrCountF R C f i j)) := by
  rw [Bool.eq_iff_iff]
  constructor
  · intro h
    rcases List.any_eq_true.mp h with ⟨cl, hmem, hpos⟩
    simp only [World._tick_living_cells, Board.get_living_cells, List.mem_filter] at hmem
    obtain ⟨⟨hflat, halive⟩, htog⟩ := hmem
    rcases mem_cells_ofFn.mp hflat with ⟨a, b2, ha, hb, rfl⟩
    rw [get_n_alive_neighbours_ofFn] at htog
    simp only [Cell.is_alive] at halive
    rcases of_decide_eq_true hpos with ⟨hri, hcj⟩
    simp only at hri hcj
    subst hri; subst hcj
    simp [ha, hb, halive, htog]
  · intro h
    simp only [Bool.and_eq_true, decide_eq_true_eq] at h
    obtain ⟨⟨⟨hi, hj⟩, hf⟩, htog⟩ := h
    apply List.any_eq_true.mpr
    refine ⟨{ row := i, col := j, _is_alive := f i j }, ?_, by simp⟩
    simp only [World._tick_living_cells, Board.get_living_cells, List.mem_filter]
    refine ⟨⟨mem_cells_ofFn.mpr ⟨i, j, hi, hj, rfl⟩, by simpa [Cell.is_alive] using hf⟩, ?_⟩
    rw [get_n_alive_neighbours_ofFn]
    exact htog

theorem any_tick_dead_ofFn (R C : Nat) (f : Nat → Nat → Bool) (t i j : Nat) :
    ((World.mk (Board.ofFn R C f) t)._tick_dead_cells.any fun cl =>
        decide (cl.row = i ∧ cl.col = j)) =
      (decide (i < R ∧ j < C) && !f i j && decide (nbrCountF R C f i j = 3)) := by
  rw [Bool.eq_iff_iff]
  constructor
  · intro h
    rcases List.any_eq_true.mp h with ⟨cl, hmem, hpos⟩
    simp only [World._tick_dead_cells, Board.get_dead_cells, List.mem_filter] at hmem
    obtain ⟨⟨hflat, hdead⟩, htog⟩ := hmem
    rcases mem_cells_ofFn.mp hflat with ⟨a, b2, ha, hb, rfl⟩
    rw [get_n_alive_neighbours_ofFn] at htog
    simp only [Cell.is_dead, Bool.not_eq_true'] at hdead
    rcases of_decide_eq_true hpos with ⟨hri, hcj⟩
    simp only at hri hcj
    subst hri; subst hcj
    simp [ha, hb, hdead, htog]
  · intro h
    simp only [Bool.and_eq_true, Bool.not_eq_true', decide_eq_true_eq] at h
    obtain ⟨⟨⟨hi, hj⟩, hf⟩, htog⟩ := h
    apply List.any_eq_true.mpr
    refine ⟨{ row := i, col := j, _is_alive := f i j }, ?_, by simp⟩
    simp only [World._tick_dead_cells, Board.get_dead_cells, List.mem_filter]
    refine ⟨⟨mem_cells_ofFn.mpr ⟨i, j, hi, hj, rfl⟩, by simp [Cell.is_dead, hf]⟩, ?_⟩
    rw [get_n_alive_neighbours_ofFn]
    simpa using htog

theorem tick_ofFn (R C : Nat) (f : Nat → Nat → Bool) (t : Nat) :
    (World.mk (Board.ofFn R C f) t).tick =
      World.mk (Board.ofFn R C (tickF R C f)) (t + 1) := by
  unfold World.tick
  simp only
  rw [toggle_at_ofFn, toggle_at_ofFn]
  apply congrArg (fun bo => World.mk bo (t + 1))
  apply ofFn_congr
  intro i j hi hj
  rw [any_tick_living_ofFn, any_tick_dead_ofFn]
  rcases hf : f i j with _ | _
  · simp only [decide_eq_true (And.intro hi hj), hf, Bool.true_and, Bool.and_false,
      Bool.false_and, Bool.not_false, Bool.true_and]
    simp [tickF, lifeNext, hf]
  · simp only [decide_eq_true (And.intro hi hj), hf, Bool.true_and, Bool.not_true,
      Bool.false_and]
    by_cases h2 : 2 ≤ nbrCountF R C f i j ∧ nbrCountF R C f i j ≤ 3
    · have hno : ¬(nbrCountF R C f i j < 2 ∨ 3 < nbrCountF R C f i j) := by omega
      simp [tickF, lifeNext, livingCellToggles_eq, hno, h2, hf]
    · have hyes : nbrCountF R C f i j < 2 ∨ 3 < nbrCountF R C f i j := by omega
      simp [tickF, lifeNext, livingCellToggles_eq, hyes, h2, hf]

theorem tickN_ofFn (R C : Nat) (f : Nat → Nat → Bool) (t n : Nat) :
    (World.mk (Board.ofFn R C f) t).tickN n =
      World.mk (Board.ofFn R C (tickFN R C f n)) (t + n) := by
  induction n with
  | zero => rfl
  | succ n ih =>
    rw [World.tickN, ih, tick_ofFn]
    rfl

theorem tick_tick_counter (w : World) : (w.tick)._tick = w._tick + 1 := rfl

theorem toggle_at_frame (b : Board) (ts : List Cell) (i j : Nat) :
    ((b.toggle_at ts).cellAt i j).row = (b.cellAt i j).row ∧
    ((b.toggle_at ts).cellAt i j).col = (b.cellAt i j).col := by
  unfold Board.toggle_at Board.cellAt
  simp only [List.getElem?_map]
  cases h1 : b.cells[i]? with
  | none => simp
  | some rw1 =>
    cases h2 : rw1[j]? with
    | none => simp [List.getElem?_map, h2]
    | some c =>
      simp only [Option.map_some', Option.some_bind, List.getElem?_map, h2, Option.getD_some]
      constructor <;> (split <;> simp [Cell.set_alive])

theorem get_living_cells_ofFn_eq_nil {R C : Nat} {f : Nat → Nat → Bool} :
    (Board.ofFn R C f).get_living_cells = [] ↔ ∀ i j, i < R → j < C → f i j = false := by
  unfold Board.get_living_cells
  rw [List.filter_eq_nil_iff]
  constructor
  · intro h i j hi hj
    have hm := h { row := i, col := j, _is_alive := f i j } (mem_cells_ofFn.mpr ⟨i, j, hi, hj, rfl⟩)
    simpa [Cell.is_alive] using hm
  · intro h cell hcell
    rcases mem_cells_ofFn.mp hcell with ⟨i, j, hi, hj, rfl⟩
    simp [Cell.is_alive, h i j hi hj]

theorem tickF_of_all_dead {R C : Nat} {f : Nat → Nat → Bool}
    (h : ∀ i j, i < R → j < C → f i j = false) (i j : Nat) (hi : i < R) (hj : j < C) :
    tickF R C f i j = false := by
  have hcount : nbrCountF R C f i j = 0 := by
    unfold nbrCountF
    rw [List.length_eq_zero, List.filter_eq_nil_iff]
    intro d _
    simp only [decide_eq_true_eq]
    rintro ⟨h1, h2, h3, h4, h5⟩
    have hz : f ((i : Int) + d.1).toNat ((j : Int) + d.2).toNat = false :=
      h _ _ (by omega) (by omega)
    rw [hz] at h5
    exact absurd h5 (by simp)
  unfold tickF lifeNext
  rw [h i j hi hj, hcount]
  simp

/-- C7: the generation counter of a freshly constructed `World` is 0, each
`tick()` increments it by exactly 1 regardless of the board, and after n
ticks from construction it equals n. -/
theorem C7_generation_counter :
    (∀ board : Board, (World.new board)._tick = 0) ∧
    (∀ w : World, (w.tick)._tick = w._tick + 1) ∧
    (∀ (board : Board) (n : Nat), ((World.new board).tickN n)._tick = n) := by
  refine ⟨fun _ => rfl, fun w => rfl, fun board n => ?_⟩
  induction n with
  | zero => rfl
  | succ n ih =>
    rw [World.tickN, tick_tick_counter, ih]

/-- C9: `tick()` changes only alive flags and the counter: the board's row
count, column count, and every cell's recorded (row, col) position are
unchanged, for every world. -/
theorem C9_tick_frame (w : World) (i j : Nat) :
    (w.tick.board.n_rows = w.board.n_rows ∧ w.tick.board.n_cols = w.board.n_cols) ∧
    (w.tick.board.cellAt i j).row = (w.board.cellAt i j).row ∧
    (w.tick.board.cellAt i j).col = (w.board.cellAt i j).col := by
  refine ⟨⟨rfl, rfl⟩, ?_⟩
  have h1 := toggle_at_frame (w.board.toggle_at w._tick_living_cells) w._tick_dead_cells i j
  have h2 := toggle_at_frame w.board w._tick_living_cells i j
  exact ⟨h1.1.trans h2.1, h1.2.trans h2.2⟩

/-- C4: a grid with no living cell stays all-dead after any number of
ticks (the all-dead grid is a fixed point of `tick()`). -/
theorem C4_all_dead_fixed_point (R C : Nat) (f : Nat → Nat → Bool) (t n : Nat)
    (h : (Board.ofFn R C f).get_living_cells = []) :
    ((World.mk (Board.ofFn R C f) t).tickN n).board.get_living_cells = [] := by
  rw [tickN_ofFn]
  show (Board.ofFn R C (tickFN R C f n)).get_living_cells = []
  rw [get_living_cells_ofFn_eq_nil]
  rw [get_living_cells_ofFn_eq_nil] at h
  induction n with
  | zero => exact h
  | succ n ih => exact fun i j hi hj => tickF_of_all_dead ih i j hi hj

theorem C4_witness :
    (Board.ofFn 2 2 (fun _ _ => false)).get_living_cells = [] ∧
    ((World.mk (Board.ofFn 2 2 (fun _ _ => false)) 0).tickN 3).board.get_living_cells = [] :=
  ⟨by decide, C4_all_dead_fixed_point 2 2 (fun _ _ => false) 0 3 (by decide)⟩

/-- C1: one `tick()` computes the next state as a pure function of the
pre-tick snapshot: a live cell survives iff its pre-tick alive-neighbour
count (as computed by the board's own neighbour query) is 2 or 3, and a
dead cell becomes alive iff that count is exactly 3.  The scan/apply split
is inherent in `World.tick`: both toggle lists are computed from the
pre-tick board before any toggle is applied. -/
theorem C1_tick_rule (R C : Nat) (f : Nat → Nat → Bool) (t i j : Nat)
    (hi : i < R) (hj : j < C) :
    (((Board.ofFn R C f).cellAt i j).is_alive = true →
      ((((World.mk (Board.ofFn R C f) t).tick).board.cellAt i j).is_alive = true ↔
        (2 ≤ Cells.get_n_alive
            ((Board.ofFn R C f).get_neighbours ((Board.ofFn R C f).cellAt i j)) ∧
          Cells.get_n_alive
            ((Board.ofFn R C f).get_neighbours ((Board.ofFn R C f).cellAt i j)) ≤ 3))) ∧
    (((Board.ofFn R C f).cellAt i j).is_alive = false →
      ((((World.mk (Board.ofFn R C f) t).tick).board.cellAt i j).is_alive = true ↔
        Cells.get_n_alive
          ((Board.ofFn R C f).get_neighbours ((Board.ofFn R C f).cellAt i j)) = 3)) := by
  rw [tick_ofFn]
  show (((Board.ofFn R C f).cellAt i j).is_alive = true →
      (((Board.ofFn R C (tickF R C f)).cellAt i j).is_alive = true ↔ _)) ∧
    (((Board.ofFn R C f).cellAt i j).is_alive = false →
      (((Board.ofFn R C (tickF R C f)).cellAt i j).is_alive = true ↔ _))
  rw [cellAt_ofFn R C (tickF R C f) i j hi hj, cellAt_ofFn R C f i j hi hj,
    get_n_alive_neighbours_ofFn]
  rcases hf : f i j with _ | _ <;>
    simp [Cell.is_alive, tickF, lifeNext, hf]

theorem C1_witness :
    ((0 : Nat) < 3 ∧ (1 : Nat) < 3) ∧
    (((((Board.ofFn 3 3 horizBlinker).cellAt 0 1).is_alive = true →
      ((((World.mk (Board.ofFn 3 3 horizBlinker) 0).tick).board.cellAt 0 1).is_alive = true ↔
        (2 ≤ Cells.get_n_alive
            ((Board.ofFn 3 3 horizBlinker).get_neighbours
              ((Board.ofFn 3 3 horizBlinker).cellAt 0 1)) ∧
          Cells.get_n_alive
            ((Board.ofFn 3 3 horizBlinker).get_neighbours
              ((Board.ofFn 3 3 horizBlinker).cellAt 0 1)) ≤ 3))) ∧
    (((Board.ofFn 3 3 horizBlinker).cellAt 0 1).is_alive = false →
      ((((World.mk (Board.ofFn 3 3 horizBlinker) 0).tick).board.cellAt 0 1).is_alive = true ↔
        Cells.get_n_alive
          ((Board.ofFn 3 3 horizBlinker).get_neighbours
            ((Board.ofFn 3 3 horizBlinker).cellAt 0 1)) = 3)))) :=
  ⟨⟨by decide, by decide⟩, C1_tick_rule 3 3 horizBlinker 0 0 1 (by decide) (by decide)⟩

theorem length_filter_cons {α : Type} (p : α → Bool) (a : α) (l : List α) :
    (List.filter p (a :: l)).length = (if p a = true then 1 else 0) + (List.filter p l).length := by
  by_cases h : p a = true <;> simp [h, Nat.add_comm]

theorem sum_map_const_range (n c : Nat) : ((List.range n).map fun _ => c).sum = n * c := by
  induction n with
  | zero => simp
  | succ n ih =>
    rw [List.range_succ, List.map_append, List.sum_append, ih]
    simp [Nat.succ_mul]

theorem living_dead_count_ofFn (R C : Nat) (f : Nat → Nat → Bool) :
    (Board.ofFn R C f).get_living_cells.length +
      (Board.ofFn R C f).get_dead_cells.length = R * C := by
  unfold Board.get_living_cells Board.get_dead_cells
  rw [← List.countP_eq_length_filter, ← List.countP_eq_length_filter]
  have hd : List.countP (fun cell => cell.is_dead) ((Board.ofFn R C f).cells.flatten) =
      List.countP (fun a => decide ¬((fun cell : Cell => cell.is_alive) a = true))
        ((Board.ofFn R C f).cells.flatten) := by
    apply List.countP_congr
    intro c _
    simp [Cell.is_dead, Cell.is_alive]
  rw [hd, ← List.length_eq_countP_add_countP, List.length_flatten]
  unfold Board.ofFn
  simp only [List.map_map]
  have hc : (List.length ∘ fun i => (List.range C).map fun j =>
      ({ row := i, col := j, _is_alive := f i j } : Cell)) = fun _ => C := by
    funext i
    simp
  rw [hc, sum_map_const_range]

/-- C3: on every reachable grid the positions reported alive and reported
dead partition the grid: living + dead = rows * cols, in the initial state
(n = 0) and after any number n of ticks. -/
theorem C3_living_dead_partition (R C : Nat) (f : Nat → Nat → Bool) (t n : Nat) :
    ((World.mk (Board.ofFn R C f) t).tickN n).board.get_living_cells.length +
      ((World.mk (Board.ofFn R C f) t).tickN n).board.get_dead_cells.length = R * C := by
  rw [tickN_ofFn]
  exact living_dead_count_ofFn R C (tickFN R C f n)

/-- C6: neighbour counting enumerates exactly the 8 offset positions
(dr, dc), dr, dc in {-1,0,1} minus (0,0), in source order; the returned
count is the number of in-bounds neighbour positions that are alive (no
wraparound); for the corner cell (0,0) only the (at most) 3 in-bounds
positions (0,1), (1,0), (1,1) can contribute. -/
theorem C6_neighbour_enumeration (R C : Nat) (f : Nat → Nat → Bool) (cell : Cell) :
    (Board._get_cell_neighbour_indices cell =
      [((cell.row : Int) - 1, (cell.col : Int) - 1), ((cell.row : Int) - 1, (cell.col : Int)),
       ((cell.row : Int) - 1, (cell.col : Int) + 1), ((cell.row : Int), (cell.col : Int) - 1),
       ((cell.row : Int), (cell.col : Int) + 1), ((cell.row : Int) + 1, (cell.col : Int) - 1),
       ((cell.row : Int) + 1, (cell.col : Int)), ((cell.row : Int) + 1, (cell.col : Int) + 1)]) ∧
    (Cells.get_n_alive ((Board.ofFn R C f).get_neighbours cell) =
      nbrCountF R C f cell.row cell.col) ∧
    (0 < R → 0 < C →
      Cells.get_n_alive ((Board.ofFn R C f).get_neighbours ((Board.ofFn R C f).cellAt 0 0)) =
        (if 1 < C ∧ f 0 1 = true then 1 else 0) + (if 1 < R ∧ f 1 0 = true then 1 else 0) +
          (if 1 < R ∧ 1 < C ∧ f 1 1 = true then 1 else 0)) := by
  refine ⟨?_, get_n_alive_neighbours_ofFn R C f cell, ?_⟩
  · show Board._get_cell_neighbour_indices cell = _
    rw [neighbour_indices_eq_offsets]
    unfold neighbourOffsets
    simp [sub_eq_add_neg]
  · intro hR hC
    rw [cellAt_ofFn R C f 0 0 hR hC, get_n_alive_neighbours_ofFn]
    show nbrCountF R C f 0 0 = _
    unfold nbrCountF neighbourOffsets
    rw [length_filter_cons, length_filter_cons, length_filter_cons, length_filter_cons,
      length_filter_cons, length_filter_cons, length_filter_cons, length_filter_cons]
    simp only [List.filter_nil, List.length_nil, decide_eq_true_eq]
    norm_num [hR, hC]
    rw [Nat.add_assoc]

theorem C6_witness :
    ((0 : Nat) < 3 ∧ (0 : Nat) < 3) ∧
    Cells.get_n_alive ((Board.ofFn 3 3 horizBlinker).get_neighbours
        ((Board.ofFn 3 3 horizBlinker).cellAt 0 0)) =
      (if 1 < 3 ∧ horizBlinker 0 1 = true then 1 else 0) +
        (if 1 < 3 ∧ horizBlinker 1 0 = true then 1 else 0) +
        (if 1 < 3 ∧ 1 < 3 ∧ horizBlinker 1 1 = true then 1 else 0) :=
  ⟨⟨by decide, by decide⟩,
    (C6_neighbour_enumeration 3 3 horizBlinker { row := 0, col := 0, _is_alive := false }).2.2
      (by decide) (by decide)⟩

theorem nbr_horiz (R C : Nat) (hR : 5 ≤ R) (hC : 5 ≤ C) (i j : Nat) :
    nbrCountF R C horizBlinker i j = horizNbrCount i j := by
  unfold nbrCountF horizNbrCount
  apply congrArg List.length
  apply List.filter_congr
  intro d _
  rw [decide_eq_decide]
  simp only [horizBlinker, List.mem_cons, List.not_mem_nil, or_false, Prod.mk.injEq,
    decide_eq_true_eq]
  omega

theorem nbr_vert (R C : Nat) (hR : 5 ≤ R) (hC : 5 ≤ C) (i j : Nat) :
    nbrCountF R C vertBlinker i j = vertNbrCount i j := by
  unfold nbrCountF vertNbrCount
  apply congrArg List.length
  apply List.filter_congr
  intro d _
  rw [decide_eq_decide]
  simp only [vertBlinker, List.mem_cons, List.not_mem_nil, or_false, Prod.mk.injEq,
    decide_eq_true_eq]
  omega

theorem tickF_horiz (R C : Nat) (hR : 5 ≤ R) (hC : 5 ≤ C) (i j : Nat) :
    tickF R C horizBlinker i j = vertBlinker i j := by
  unfold tickF
  rw [nbr_horiz R C hR hC]
  by_cases hi4 : 4 ≤ i
  · have hcnt : horizNbrCount i j = 0 := by
      unfold horizNbrCount
      rw [List.length_eq_zero, List.filter_eq_nil_iff]
      intro d hd
      fin_cases hd <;>
        (simp only [List.mem_cons, List.not_mem_nil, or_false, Prod.mk.injEq,
          decide_eq_true_eq]; omega)
    have hh : horizBlinker i j = false := by
      simp only [horizBlinker, decide_eq_false_iff_not]
      omega
    have hv : vertBlinker i j = false := by
      simp only [vertBlinker, decide_eq_false_iff_not]
      omega
    rw [hcnt, hh, hv]
    rfl
  · by_cases hj5 : 5 ≤ j
    · have hcnt : horizNbrCount i j = 0 := by
        unfold horizNbrCount
        rw [List.length_eq_zero, List.filter_eq_nil_iff]
        intro d hd
        fin_cases hd <;>
          (simp only [List.mem_cons, List.not_mem_nil, or_false, Prod.mk.injEq,
            decide_eq_true_eq]; omega)
      have hh : horizBlinker i j = false := by
        simp only [horizBlinker, decide_eq_false_iff_not]
        omega
      have hv : vertBlinker i j = false := by
        simp only [vertBlinker, decide_eq_false_iff_not]
        omega
      rw [hcnt, hh, hv]
      rfl
    · have hi' : i < 4 := by omega
      have hj' : j < 5 := by omega
      interval_cases i <;> interval_cases j <;> decide

theorem tickF_vert (R C : Nat) (hR : 5 ≤ R) (hC : 5 ≤ C) (i j : Nat) :
    tickF R C vertBlinker i j = horizBlinker i j := by
  unfold tickF
  rw [nbr_vert R C hR hC]
  by_cases hi5 : 5 ≤ i
  · have hcnt : vertNbrCount i j = 0 := by
      unfold vertNbrCount
      rw [List.length_eq_zero, List.filter_eq_nil_iff]
      intro d hd
      fin_cases hd <;>
        (simp only [List.mem_cons, List.not_mem_nil, or_false, Prod.mk.injEq,
          decide_eq_true_eq]; omega)
    have hh : horizBlinker i j = false := by
      simp only [horizBlinker, decide_eq_false_iff_not]
      omega
    have hv : vertBlinker i j = false := by
      simp only [vertBlinker, decide_eq_false_iff_not]
      omega
    rw [hcnt, hv, hh]
    rfl
  · by_cases hj4 : 4 ≤ j
    · have hcnt : vertNbrCount i j = 0 := by
        unfold vertNbrCount
        rw [List.length_eq_zero, List.filter_eq_nil_iff]
        intro d hd
        fin_cases hd <;>
          (simp only [List.mem_cons, List.not_mem_nil, or_false, Prod.mk.injEq,
            decide_eq_true_eq]; omega)
      have hh : horizBlinker i j = false := by
        simp only [horizBlinker, decide_eq_false_iff_not]
        omega
      have hv : vertBlinker i j = false := by
        simp only [vertBlinker, decide_eq_false_iff_not]
        omega
      rw [hcnt, hv, hh]
      rfl
    · have hi' : i < 5 := by omega
      have hj' : j < 4 := by omega
      interval_cases i <;> interval_cases j <;> decide

/-- C5: on any grid of at least 5 x 5 seeded with exactly the horizontal
blinker (2,1), (2,2), (2,3), after one tick exactly (1,2), (2,2), (3,2)
are alive, and after a second tick exactly the original three cells are
alive again (period-2 oscillator). -/
theorem C5_blinker_oscillates (R C : Nat) (hR : 5 ≤ R) (hC : 5 ≤ C) :
    (∀ i j, i < R → j < C →
      (((World.new (Board.ofFn R C horizBlinker)).tick).board.cellAt i j).is_alive =
        vertBlinker i j) ∧
    (∀ i j, i < R → j < C →
      ((((World.new (Board.ofFn R C horizBlinker)).tick).tick).board.cellAt i j).is_alive =
        horizBlinker i j) := by
  have h1 : (World.new (Board.ofFn R C horizBlinker)).tick =
      World.mk (Board.ofFn R C vertBlinker) 1 := by
    rw [show World.new (Board.ofFn R C horizBlinker) =
      World.mk (Board.ofFn R C horizBlinker) 0 from rfl, tick_ofFn]
    exact congrArg (fun bo => World.mk bo 1)
      (ofFn_congr fun i j _ _ => tickF_horiz R C hR hC i j)
  have h2 : ((World.new (Board.ofFn R C horizBlinker)).tick).tick =
      World.mk (Board.ofFn R C horizBlinker) 2 := by
    rw [h1, tick_ofFn]
    exact congrArg (fun bo => World.mk bo 2)
      (ofFn_congr fun i j _ _ => tickF_vert R C hR hC i j)
  constructor
  · intro i j hi hj
    rw [h1]
    show ((Board.ofFn R C vertBlinker).cellAt i j).is_alive = _
    rw [cellAt_ofFn R C vertBlinker i j hi hj]
    rfl
  · intro i j hi hj
    rw [h2]
    show ((Board.ofFn R C horizBlinker).cellAt i j).is_alive = _
    rw [cellAt_ofFn R C horizBlinker i j hi hj]
    rfl

theorem C5_witness :
    ((5 : Nat) ≤ 5 ∧ (5 : Nat) ≤ 5) ∧
    ((∀ i j, i < 5 → j < 5 →
      (((World.new (Board.ofFn 5 5 horizBlinker)).tick).board.cellAt i j).is_alive =
        vertBlinker i j) ∧
     (∀ i j, i < 5 → j < 5 →
      ((((World.new (Board.ofFn 5 5 horizBlinker)).tick).tick).board.cellAt i j).is_alive =
        horizBlinker i j)) :=
  ⟨⟨by decide, by decide⟩, C5_blinker_oscillates 5 5 (by decide) (by decide)⟩

theorem pyGet_char {α : Type} (l : List α) (i : Int) :
    pyGet l i = if (l.length : Int) ≤ i ∨ i + l.length < 0 then none
      else l[pyIdx l.length i]? := by
  unfold pyGet pyIdx
  by_cases hneg : i < 0
  · simp only [hneg, if_true]
    by_cases hlt : i + (l.length : Int) < 0
    · rw [if_pos hlt, if_pos (Or.inr hlt)]
    · rw [if_neg hlt, if_neg (by omega : ¬((l.length : Int) ≤ i ∨ i + l.length < 0))]
  · simp only [hneg, if_false]
    by_cases hge : (l.length : Int) ≤ i
    · rw [if_pos (Or.inl hge)]
      exact List.getElem?_eq_none (by omega)
    · rw [if_neg (by omega : ¬((l.length : Int) ≤ i ∨ i + l.length < 0))]

/-- C2 counterexample: on a 2 x 2 grid the out-of-bounds access (-1, 0)
does not fail: Python negative indexing silently returns the cell at
(1, 0) — another cell's state, with no error. -/
theorem C2_counterexample_negative_index_wraps :
    Board.find_cell_by_row_col (Board.ofFn 2 2 fun _ _ => false) (-1) 0 ≠ none ∧
    Board.find_cell_by_row_col (Board.ofFn 2 2 fun _ _ => false) (-1) 0 =
      some { row := 1, col := 0, _is_alive := false } := by
  constructor <;> decide

/-- C2 amended: a cell access with `row >= rows`, `row < -rows`,
`col >= cols` or `col < -cols` fails with IndexError; but a negative index
in `[-rows, -1]` (resp. `[-cols, -1]`) does not fail: Python indexing
silently wraps it to `row + rows` (resp. `col + cols`), returning another
cell of the grid. -/
theorem C2_amended_bounds_behaviour (R C : Nat) (f : Nat → Nat → Bool) (row col : Int) :
    Board.find_cell_by_row_col (Board.ofFn R C f) row col =
      if (R : Int) ≤ row ∨ row + R < 0 ∨ (C : Int) ≤ col ∨ col + C < 0 then none
      else some { row := pyIdx R row, col := pyIdx C col,
                  _is_alive := f (pyIdx R row) (pyIdx C col) } := by
  unfold Board.find_cell_by_row_col
  rw [pyGet_char, cells_length_ofFn]
  by_cases hrow : (R : Int) ≤ row ∨ row + R < 0
  · rw [if_pos hrow, if_pos (by tauto)]
    rfl
  · rw [if_neg hrow]
    rcases not_or.mp hrow with ⟨h1, h2⟩
    have hlt : pyIdx R row < R := by
      unfold pyIdx
      split_ifs <;> omega
    rw [cells_getElem?_ofFn R C f _ hlt, Option.some_bind, pyGet_char,
      List.length_map, List.length_range]
    by_cases hcol : (C : Int) ≤ col ∨ col + C < 0
    · rw [if_pos hcol, if_pos (by tauto)]
    · rw [if_neg hcol]
      rcases not_or.mp hcol with ⟨h3, h4⟩
      have hltc : pyIdx C col < C := by
        unfold pyIdx
        split_ifs <;> omega
      rw [List.getElem?_map, List.getElem?_range hltc,
        if_neg (by tauto : ¬((R : Int) ≤ row ∨ row + R < 0 ∨ (C : Int) ≤ col ∨ col + C < 0))]
      rfl

theorem find_cell_ofFn (R C : Nat) (g : Nat → Nat → Bool) (idx : Int)
    (h0 : 0 ≤ idx) (hlt : idx < ((R * C : Nat) : Int)) :
    (Board.ofFn R C g).find_cell idx =
      some { row := idx.toNat / C, col := idx.toNat % C,
             _is_alive := g (idx.toNat / C) (idx.toNat % C) } := by
  have hC : ¬(C = 0) := by
    intro hc
    subst hc
    rw [Nat.mul_zero] at hlt
    exact absurd hlt (by omega)
  unfold Board.find_cell
  have hproj : (Board.ofFn R C g).n_cols = C := rfl
  rw [hproj, if_neg hC]
  obtain ⟨n, rfl⟩ : ∃ n : Nat, idx = (n : Int) := ⟨idx.toNat, (Int.toNat_of_nonneg h0).symm⟩
  rw [← Int.ofNat_ediv, ← Int.ofNat_emod, pyGet_char, cells_length_ofFn]
  have hn : n < R * C := by exact_mod_cast hlt
  have hdiv : n / C < R := (Nat.div_lt_iff_lt_mul (Nat.pos_of_ne_zero hC)).mpr (by omega)
  have hdivI : ((n / C : Nat) : Int) < (R : Int) := by exact_mod_cast hdiv
  have hdiv0 : (0 : Int) ≤ ((n / C : Nat) : Int) := Int.natCast_nonneg _
  rw [if_neg (by omega : ¬((R : Int) ≤ ((n / C : Nat) : Int) ∨ ((n / C : Nat) : Int) + R < 0))]
  have hpy : pyIdx R ((n / C : Nat) : Int) = n / C := by
    unfold pyIdx
    rw [if_neg (by omega)]
    omega
  rw [hpy, cells_getElem?_ofFn R C g _ hdiv, Option.some_bind, pyGet_char,
    List.length_map, List.length_range]
  have hmod : n % C < C := Nat.mod_lt _ (Nat.pos_of_ne_zero hC)
  have hmodI : ((n % C : Nat) : Int) < (C : Int) := by exact_mod_cast hmod
  have hmod0 : (0 : Int) ≤ ((n % C : Nat) : Int) := Int.natCast_nonneg _
  rw [if_neg (by omega : ¬((C : Int) ≤ ((n % C : Nat) : Int) ∨ ((n % C : Nat) : Int) + C < 0))]
  have hpy2 : pyIdx C ((n % C : Nat) : Int) = n % C := by
    unfold pyIdx
    rw [if_neg (by omega)]
    omega
  rw [hpy2, List.getElem?_map, List.getElem?_range hmod]
  simp

theorem seed_fold_isSome (R C : Nat) (choices : Nat → Nat) (hpos : 0 < R * C) :
    ∀ (L : List Nat) (g : Nat → Nat → Bool) (t : Nat),
      (List.foldlM (seedStep (R * C) choices) (World.mk (Board.ofFn R C g) t) L).isSome := by
  intro L
  induction L with
  | nil => intro g t; rfl
  | cons x L ih =>
    intro g t
    rw [List.foldlM_cons]
    have hstep : seedStep (R * C) choices (World.mk (Board.ofFn R C g) t) x =
        some (World.mk (Board.ofFn R C
          (setF g (((0 : Int) + ((choices x % (R * C) : Nat) : Int)).toNat / C)
            (((0 : Int) + ((choices x % (R * C) : Nat) : Int)).toNat % C) true)) t) := by
      unfold seedStep randint
      rw [if_neg (by omega : ¬(((R * C : Nat) : Int) - 1 < 0)), Option.some_bind]
      have htn : (((R * C : Nat) : Int) - 1 - 0 + 1).toNat = R * C := by omega
      rw [htn]
      have hb : (World.mk (Board.ofFn R C g) t).board = Board.ofFn R C g := rfl
      have ht : (World.mk (Board.ofFn R C g) t)._tick = t := rfl
      rw [hb, ht]
      have hm0 : (0 : Int) ≤ 0 + ((choices x % (R * C) : Nat) : Int) := by
        have := Int.natCast_nonneg (choices x % (R * C))
        omega
      have hmlt : (0 : Int) + ((choices x % (R * C) : Nat) : Int) < ((R * C : Nat) : Int) := by
        have h1 := Nat.mod_lt (choices x) hpos
        have h2 : ((choices x % (R * C) : Nat) : Int) < ((R * C : Nat) : Int) := by
          exact_mod_cast h1
        omega
      rw [find_cell_ofFn R C g _ hm0 hmlt, Option.map_some', set_cell_alive_ofFn]
    rw [hstep]
    exact ih _ t

/-- C8 counterexample: the degenerate 0 x 0 grid is legal, but
`random_seed(1)` fails on it: `world_len` is 0 and `random.randint(0, -1)`
raises ValueError. -/
theorem C8_counterexample_empty_grid_seed_fails :
    (World.new (Board.ofFn 0 0 fun _ _ => false)).random_seed (fun _ => 0) 1 = none := by
  decide

/-- C8 amended: `tick()` always succeeds, and `random_seed(n_live)`
succeeds on every grid that has at least one cell, and with `n_live = 0` on
any grid; only on a 0-sized grid with `n_live >= 1` does it fail. -/
theorem C8_amended_seed_succeeds (R C : Nat) (f : Nat → Nat → Bool) (t : Nat)
    (choices : Nat → Nat) (n_live : Nat) (h : 0 < R * C ∨ n_live = 0) :
    ((World.mk (Board.ofFn R C f) t).random_seed choices n_live).isSome := by
  rcases h with h | h
  · unfold World.random_seed
    show (List.foldlM (seedStep ((World.mk (Board.ofFn R C f) t)._one_dim_size) choices)
      (World.mk (Board.ofFn R C f) t) (List.range n_live)).isSome
    have he : (World.mk (Board.ofFn R C f) t)._one_dim_size = R * C := rfl
    rw [he]
    exact seed_fold_isSome R C choices h (List.range n_live) f t
  · subst h
    rfl

theorem C8_witness :
    (0 < 1 * 1 ∨ (2 : Nat) = 0) ∧
    ((World.mk (Board.ofFn 1 1 fun _ _ => false) 0).random_seed (fun _ => 0) 2).isSome :=
  ⟨Or.inl (by decide),
    C8_amended_seed_succeeds 1 1 (fun _ _ => false) 0 (fun _ => 0) 2 (Or.inl (by decide))⟩

theorem living_length_ofFn (R C : Nat) (g : Nat → Nat → Bool) :
    (Board.ofFn R C g).get_living_cells.length = aliveCountF R C g := by
  unfold Board.get_living_cells aliveCountF
  rw [← List.countP_eq_length_filter, List.countP_flatten]
  unfold Board.ofFn
  simp only [List.map_map]
  apply congrArg List.sum
  apply List.map_congr_left
  intro i _
  simp only [Function.comp]
  rw [List.countP_map, ← List.countP_eq_length_filter]
  apply List.countP_congr
  intro j _
  simp [Cell.is_alive]

theorem countP_point_update_le (c : Nat) (v : Bool) :
    ∀ (l : List Nat) (p : Nat → Bool), l.Nodup →
      (l.countP fun j => if j = c then v else p j) ≤ l.countP p + 1 := by
  intro l
  induction l with
  | nil =>
    intro p _
    simp
  | cons a l ih =>
    intro p hnd
    rw [List.countP_cons, List.countP_cons]
    rcases List.nodup_cons.mp hnd with ⟨ha, hnd'⟩
    by_cases hac : a = c
    · subst hac
      have htail : (l.countP fun j => if j = a then v else p j) = l.countP p := by
        apply List.countP_congr
        intro x hx
        have hxa : x ≠ a := fun hxa => ha (hxa ▸ hx)
        simp [hxa]
      rw [htail]
      split_ifs <;> omega
    · have hih := ih p hnd'
      simp only [hac, if_false]
      split_ifs <;> omega

theorem sum_map_update_le (F G : Nat → Nat) (r : Nat)
    (heq : ∀ i, i ≠ r → G i = F i) (hle : G r ≤ F r + 1) :
    ∀ n, ((List.range n).map G).sum ≤ ((List.range n).map F).sum + 1 := by
  intro n
  induction n with
  | zero => simp
  | succ n ih =>
    rw [List.range_succ, List.map_append, List.map_append, List.sum_append, List.sum_append]
    by_cases hn : n = r
    · subst hn
      have hmap : List.map G (List.range n) = List.map F (List.range n) := by
        apply List.map_congr_left
        intro x hx
        exact heq x (fun hxr => absurd (List.mem_range.mp hx) (by omega))
      rw [hmap]
      simp only [List.map_cons, List.map_nil, List.sum_cons, List.sum_nil]
      omega
    · have hG : G n = F n := heq n hn
      simp only [List.map_cons, List.map_nil, List.sum_cons, List.sum_nil, hG]
      omega

theorem aliveCountF_setF_le (R C : Nat) (g : Nat → Nat → Bool) (r c : Nat) (v : Bool) :
    aliveCountF R C (setF g r c v) ≤ aliveCountF R C g + 1 := by
  unfold aliveCountF
  apply sum_map_update_le
    (fun i => ((List.range C).filter fun j => g i j).length)
    (fun i => ((List.range C).filter fun j => setF g r c v i j).length) r
  · intro i hir
    apply congrArg List.length
    apply List.filter_congr
    intro j _
    unfold setF
    rw [if_neg (by tauto)]
  · rw [← List.countP_eq_length_filter, ← List.countP_eq_length_filter]
    have hcong : ((List.range C).countP fun j => setF g r c v r j) =
        ((List.range C).countP fun j => if j = c then v else g r j) := by
      apply List.countP_congr
      intro j _
      unfold setF
      by_cases hjc : j = c
      · simp [hjc]
      · simp [hjc]
    rw [hcong]
    exact countP_point_update_le c v (List.range C) (fun j => g r j) (List.nodup_range C)

theorem setF_monotone (g : Nat → Nat → Bool) (r c : Nat) (i j : Nat)
    (h : g i j = true) : setF g r c true i j = true := by
  unfold setF
  split_ifs <;> simp [h]

theorem pyGet_inv {α : Type} {l : List α} {i : Int} {a : α} (h : pyGet l i = some a) :
    ∃ k, k < l.length ∧ l[k]? = some a := by
  rw [pyGet_char] at h
  by_cases hcond : (l.length : Int) ≤ i ∨ i + l.length < 0
  · rw [if_pos hcond] at h
    exact absurd h (by simp)
  · rw [if_neg hcond] at h
    refine ⟨pyIdx l.length i, ?_, h⟩
    rcases not_or.mp hcond with ⟨h1, h2⟩
    unfold pyIdx
    split_ifs <;> omega

theorem find_cell_ofFn_inv (R C : Nat) (g : Nat → Nat → Bool) (idx : Int) (cell : Cell)
    (h : (Board.ofFn R C g).find_cell idx = some cell) :
    ∃ r c, r < R ∧ c < C ∧ cell = { row := r, col := c, _is_alive := g r c } := by
  unfold Board.find_cell at h
  have hproj : (Board.ofFn R C g).n_cols = C := rfl
  rw [hproj] at h
  by_cases hC : C = 0
  · rw [if_pos hC] at h
    exact absurd h (by simp)
  · rw [if_neg hC] at h
    rcases Option.bind_eq_some.mp h with ⟨rw1, h1, h2⟩
    rcases pyGet_inv h1 with ⟨k, hk, hget1⟩
    rw [cells_length_ofFn] at hk
    rw [cells_getElem?_ofFn R C g k hk] at hget1
    have hrow : rw1 = (List.range C).map fun j => ({ row := k, col := j, _is_alive := g k j } : Cell) :=
      (Option.some.injEq _ _).mp hget1.symm
    subst hrow
    rcases pyGet_inv h2 with ⟨m, hm, hget2⟩
    rw [List.length_map, List.length_range] at hm
    rw [List.getElem?_map, List.getElem?_range hm] at hget2
    refine ⟨k, m, hk, hm, ?_⟩
    have := (Option.some.injEq _ _).mp hget2
    simp at this
    exact this.symm

theorem seed_fold_result (R C : Nat) (choices : Nat → Nat) (len : Nat) :
    ∀ (L : List Nat) (g : Nat → Nat → Bool) (t : Nat) (w' : World),
      List.foldlM (seedStep len choices) (World.mk (Board.ofFn R C g) t) L = some w' →
      ∃ g', w' = World.mk (Board.ofFn R C g') t ∧
        (∀ i j, g i j = true → g' i j = true) ∧
        aliveCountF R C g' ≤ aliveCountF R C g + L.length := by
  intro L
  induction L with
  | nil =>
    intro g t w' h
    refine ⟨g, ?_, fun i j hij => hij, by simp⟩
    simpa using h.symm
  | cons x L ih =>
    intro g t w' h
    rw [List.foldlM_cons] at h
    rcases Option.bind_eq_some.mp h with ⟨acc1, hstep, hrest⟩
    unfold seedStep at hstep
    rcases Option.bind_eq_some.mp hstep with ⟨idx, _, hmap⟩
    rcases Option.map_eq_some'.mp hmap with ⟨cell, hfind, hacc⟩
    have hb : (World.mk (Board.ofFn R C g) t).board = Board.ofFn R C g := rfl
    rw [hb] at hfind
    obtain ⟨r, c, hr, hc, rfl⟩ := find_cell_ofFn_inv R C g idx cell hfind
    rw [← hacc] at hrest
    have hacc1 : ({ World.mk (Board.ofFn R C g) t with
        board := (World.mk (Board.ofFn R C g) t).board.set_cell_alive
          { row := r, col := c, _is_alive := g r c } true } : World) =
        World.mk (Board.ofFn R C (setF g r c true)) t := by
      rw [hb, set_cell_alive_ofFn]
    rw [hacc1] at hrest
    rcases ih (setF g r c true) t w' hrest with ⟨g', hw, hmono, hcount⟩
    refine ⟨g', hw, ?_, ?_⟩
    · intro i j hij
      exact hmono i j (setF_monotone g r c i j hij)
    · have hstepcount := aliveCountF_setF_le R C g r c true
      have hlen : (x :: L).length = L.length + 1 := rfl
      omega

/-- C10: `random_seed` is monotone on the set of alive cells: whenever
`random_seed(n_live)` succeeds, every cell alive before is still alive
after, and the number of alive cells grows by at most `n_live` (the call
only ever sets cells alive, never dead). -/
theorem C10_random_seed_monotone (R C : Nat) (f : Nat → Nat → Bool) (t : Nat)
    (choices : Nat → Nat) (n_live : Nat) (w' : World)
    (h : (World.mk (Board.ofFn R C f) t).random_seed choices n_live = some w') :
    (∀ i j, i < R → j < C →
      ((Board.ofFn R C f).cellAt i j).is_alive = true →
        (w'.board.cellAt i j).is_alive = true) ∧
    w'.board.get_living_cells.length ≤
      (Board.ofFn R C f).get_living_cells.length + n_live := by
  unfold World.random_seed at h
  rcases seed_fold_result R C choices _ (List.range n_live) f t w' h with ⟨g', rfl, hmono, hcount⟩
  constructor
  · intro i j hi hj halive
    rw [cellAt_ofFn R C f i j hi hj] at halive
    show ((Board.ofFn R C g').cellAt i j).is_alive = true
    rw [cellAt_ofFn R C g' i j hi hj]
    exact hmono i j halive
  · show (Board.ofFn R C g').get_living_cells.length ≤ _
    rw [living_length_ofFn, living_length_ofFn]
    rw [List.length_range] at hcount
    exact hcount

theorem C10_witness :
    ((World.mk (Board.ofFn 2 2 fun i j => decide (i = 0 ∧ j = 0)) 0).random_seed
        (fun _ => 3) 1 =
      some (World.mk (Board.ofFn 2 2 fun i j =>
        decide ((i = 0 ∧ j = 0) ∨ (i = 1 ∧ j = 1))) 0)) ∧
    ((∀ i j, i < 2 → j < 2 →
      ((Board.ofFn 2 2 fun i j => decide (i = 0 ∧ j = 0)).cellAt i j).is_alive = true →
        ((World.mk (Board.ofFn 2 2 fun i j =>
          decide ((i = 0 ∧ j = 0) ∨ (i = 1 ∧ j = 1))) 0).board.cellAt i j).is_alive = true) ∧
    (World.mk (Board.ofFn 2 2 fun i j =>
        decide ((i = 0 ∧ j = 0) ∨ (i = 1 ∧ j = 1))) 0).board.get_living_cells.length ≤
      (Board.ofFn 2 2 fun i j => decide (i = 0 ∧ j = 0)).get_living_cells.length + 1) :=
  ⟨by decide,
    C10_random_seed_monotone 2 2 (fun i j => decide (i = 0 ∧ j = 0)) 0 (fun _ => 3) 1
      (World.mk (Board.ofFn 2 2 fun i j =>
        decide ((i = 0 ∧ j = 0) ∨ (i = 1 ∧ j = 1))) 0) (by decide)⟩
